import Mathlib

/-!
Verification of the aristay_app booking-import engine against its
specification.  The Excel import service itself
(api/services/excel_import_service.py) is exercised only through its test
suite in the repository snapshot, so the pipeline below is modelled from
the specification (sections 3 to 7 of spec.md); every such definition
carries a doc comment starting with the words Modelled from the spec.  The
admin-side save_model handler is embedded directly from
api/admin.py (TaskAdmin.save_model).
-/

namespace Aristay

/-- Booking status enumeration: confirmed, pending or cancelled, default
confirmed (spec section 3, ParsedBookingRecord). -/
inductive BookingStatus where
  | confirmed
  | pending
  | cancelled
deriving DecidableEq

/-- Modelled from the spec: the outcome of parsing one date cell against the
accepted format set (spec section 4.2).  The concrete string-to-date parser
is part of the missing service module, so a cell is modelled as either a
successfully parsed day number or an unparseable raw text. -/
inductive DateParse where
  | ok (day : Nat)
  | bad (raw : String)
deriving DecidableEq

/-- Modelled from the spec: a RawRow (spec section 3) after header mapping,
with a 1-based source row index and one optional cell per canonical field;
a missing cell is none. -/
structure RawRow where
  source_row_index : Nat
  property_name : Option String
  check_in : Option DateParse
  check_out : Option DateParse
  guest_name : Option String
  guest_contact : Option String
  status : Option String
deriving DecidableEq

/-- Error taxonomy of spec section 3 (ValidationError.kind). -/
inductive ErrorKind where
  | missing_field
  | bad_type
  | bad_range
  | unknown_property
  | empty_source
deriving DecidableEq

/-- ValidationError of spec section 3. -/
structure ValidationError where
  row_index : Nat
  field : String
  message : String
  kind : ErrorKind
deriving DecidableEq

/-- ParsedBookingRecord of spec section 3; dates are day numbers. -/
structure ParsedBookingRecord where
  property_name : String
  check_in : Nat
  check_out : Nat
  guest_name : String
  guest_contact : Option String
  status : BookingStatus
  source_row_index : Nat
deriving DecidableEq

/-- Modelled from the spec: the status cell accepts the three enum words
(spec section 3); anything else is a type error. -/
def parseStatus : String → Option BookingStatus
  | "confirmed" => some .confirmed
  | "pending" => some .pending
  | "cancelled" => some .cancelled
  | _ => none

/-- Modelled from the spec: the status field is optional with default
confirmed (spec section 3). -/
def statusOf : Option String → Option BookingStatus
  | none => some .confirmed
  | some s => parseStatus s

/-- The bad_range error of a row (spec section 4.2). -/
def badRangeErr (idx : Nat) : ValidationError :=
  ⟨idx, "check_out", "check_out must be strictly after check_in", .bad_range⟩

/-- A missing required field error (spec section 4.2). -/
def missingErr (idx : Nat) (field : String) : ValidationError :=
  ⟨idx, field, "missing required field", .missing_field⟩

/-- A type error on one field (spec section 4.2). -/
def badTypeErr (idx : Nat) (field : String) : ValidationError :=
  ⟨idx, field, "unparseable or invalid value", .bad_type⟩

/-- Modelled from the spec: the collected errors of one row (spec section
4.2): presence of the four required fields, parseability of both dates and
of the status word, and the strict date-range check; every failed check
contributes its error and no failure stops the others. -/
def rowErrors (r : RawRow) : List ValidationError :=
  (match r.property_name with
    | none => [missingErr r.source_row_index "property_name"]
    | some _ => []) ++
  (match r.check_in with
    | none => [missingErr r.source_row_index "check_in"]
    | some (.bad _) => [badTypeErr r.source_row_index "check_in"]
    | some (.ok _) => []) ++
  (match r.check_out with
    | none => [missingErr r.source_row_index "check_out"]
    | some (.bad _) => [badTypeErr r.source_row_index "check_out"]
    | some (.ok _) => []) ++
  (match r.guest_name with
    | none => [missingErr r.source_row_index "guest_name"]
    | some _ => []) ++
  (match statusOf r.status with
    | none => [badTypeErr r.source_row_index "status"]
    | some _ => []) ++
  (match r.check_in, r.check_out with
    | some (.ok ci), some (.ok co) =>
      if co ≤ ci then [badRangeErr r.source_row_index] else []
    | _, _ => [])

/-- Modelled from the spec: the ParsedBookingRecord of a row that passes
every check of spec section 4.2; a row failing any check yields none. -/
def parseRow (r : RawRow) : Option ParsedBookingRecord :=
  match r.property_name, r.check_in, r.check_out, r.guest_name, statusOf r.status with
  | some pn, some (.ok ci), some (.ok co), some gn, some stv =>
    if co ≤ ci then none
    else some ⟨pn, ci, co, gn, r.guest_contact, stv, r.source_row_index⟩
  | _, _, _, _, _ => none

/-- Modelled from the spec: the Row Validator (spec section 4.2), giving
the collected errors and, for an error-free row, its
ParsedBookingRecord. -/
def validateRow (r : RawRow) : List ValidationError × Option ParsedBookingRecord :=
  (rowErrors r, parseRow r)

/-- A property directory entry: identifier and display name. -/
abbrev PropDir := List (Nat × String)

/-- Case-insensitive string comparison: both names lowered character by
character. -/
def lowerEq (a b : String) : Bool :=
  a.data.map Char.toLower == b.data.map Char.toLower

/-- Modelled from the spec: the Property Resolver (spec section 4.3),
exact case-insensitive lookup of a property name in the directory. -/
def lookupByName (dir : PropDir) (name : String) : Option Nat :=
  (dir.find? (fun p => lowerEq p.2 name)).map (fun p => p.1)

/-- An existing booking held by the external repository (spec section 6
collaborator interfaces). -/
structure ExistingBooking where
  id : Nat
  property_id : Nat
  check_in : Nat
  check_out : Nat
  guest_name : String
  guest_contact : Option String
  status : BookingStatus
deriving DecidableEq

/-- The external booking repository: its bookings and the next fresh
identifier handed out by create. -/
structure Repo where
  bookings : List ExistingBooking
  nextId : Nat
deriving DecidableEq

/-- Modelled from the spec: the half-open interval overlap rule of spec
section 4.4; candidate interval [aIn, aOut) against existing [bIn, bOut). -/
def overlaps (aIn aOut bIn bOut : Nat) : Bool :=
  decide (aIn < bOut ∧ bIn < aOut)

/-- Whether an existing booking conflicts with a candidate stay at the
given property: same property, not cancelled, intervals overlap (spec
section 4.4). -/
def bookingConflicts (pid ci co : Nat) (b : ExistingBooking) : Bool :=
  decide (b.property_id = pid) && decide (b.status ≠ .cancelled)
    && overlaps ci co b.check_in b.check_out

/-- Modelled from the spec: BookingRepository.queryOverlapping restricted
to non-cancelled bookings of the given property (spec sections 4.4 and 6). -/
def queryOverlapping (repo : Repo) (pid ci co : Nat) : List ExistingBooking :=
  repo.bookings.filter (bookingConflicts pid ci co)

/-- ConflictDescriptor of spec section 3: one per overlapping existing
booking. -/
structure ConflictDescriptor where
  row_index : Nat
  candidate_check_in : Nat
  candidate_check_out : Nat
  existing_booking_id : Nat
  existing_check_in : Nat
  existing_check_out : Nat
  existing_guest : String
  property_id : Nat
deriving DecidableEq

/-- The stable key of a conflict, as exercised by the repository test suite
(tests/test_services.py builds the resolutions map from
str(existing_booking.id)): the decimal rendering of the overlapped existing
booking identifier. -/
def keyOfId (i : Nat) : String :=
  toString i

/-- The key under which a reported conflict is matched by a resolutions
map. -/
def conflictKey (c : ConflictDescriptor) : String :=
  keyOfId c.existing_booking_id

/-- Build the descriptor for one overlapping existing booking. -/
def mkConflict (rec : ParsedBookingRecord) (pid : Nat) (b : ExistingBooking) : ConflictDescriptor :=
  ⟨rec.source_row_index, rec.check_in, rec.check_out, b.id, b.check_in, b.check_out,
    b.guest_name, pid⟩

/-- Modelled from the spec: BookingRepository.create appends a new booking
carrying the candidate fields under a fresh identifier (spec section 6). -/
def Repo.create (repo : Repo) (rec : ParsedBookingRecord) (pid : Nat) : Repo :=
  { bookings := repo.bookings ++
      [⟨repo.nextId, pid, rec.check_in, rec.check_out, rec.guest_name,
        rec.guest_contact, rec.status⟩],
    nextId := repo.nextId + 1 }

/-- Overwrite an existing booking in place with the candidate fields,
preserving its identity (spec section 4.5, overwrite resolution). -/
def applyOverwrite (b : ExistingBooking) (rec : ParsedBookingRecord) (pid : Nat) : ExistingBooking :=
  { b with
      property_id := pid, check_in := rec.check_in, check_out := rec.check_out,
      guest_name := rec.guest_name, guest_contact := rec.guest_contact, status := rec.status }

/-- Modelled from the spec: BookingRepository.update applied to every
targeted identifier; an update mutates fields but never adds or removes a
booking and never changes an id (spec sections 4.5 and 6). -/
def Repo.overwriteAll (repo : Repo) (ids : List Nat) (rec : ParsedBookingRecord) (pid : Nat) : Repo :=
  { repo with
      bookings := repo.bookings.map (fun b => if b.id ∈ ids then applyOverwrite b rec pid else b) }

/-- Operator decision on one conflict (spec section 3, ResolutionDecision). -/
inductive Action where
  | overwrite
  | skip
deriving DecidableEq

/-- Look a conflict key up in the resolutions map. -/
def findRes (res : List (String × Action)) (k : String) : Option Action :=
  (res.find? (fun p => p.1 == k)).map (fun p => p.2)

/-- Running state of one orchestrator invocation: the repository threaded
through the rows, the three row counters, and the accumulated errors and
conflict descriptors.  conflictRows counts rows withheld with unresolved
conflicts (one per row, however many descriptors the row produced). -/
structure ImportState where
  repo : Repo
  imported : Nat
  skipped : Nat
  conflictRows : Nat
  errors : List ValidationError
  conflicts : List ConflictDescriptor
deriving DecidableEq

/-- The state at the start of an invocation over a given repository. -/
def initState (repo : Repo) : ImportState :=
  ⟨repo, 0, 0, 0, [], []⟩

/-- The error raised for a row whose property name resolves to nothing
(spec section 4.3). -/
def unknownPropErr (rec : ParsedBookingRecord) : ValidationError :=
  ⟨rec.source_row_index, "property_name", "no matching property", .unknown_property⟩

/-- Modelled from the spec: one row of detect-and-import (spec section
4.5).  An invalid row only contributes its errors; an unresolvable
property name contributes an unknown_property error; a resolved row with
no overlap commits immediately through create; a resolved row with
overlaps is withheld and yields one descriptor per overlapping booking. -/
def processRowDetect (dir : PropDir) (st : ImportState) (r : RawRow) : ImportState :=
  match (validateRow r).2 with
  | none => { st with errors := st.errors ++ (validateRow r).1 }
  | some rec =>
    match lookupByName dir rec.property_name with
    | none => { st with errors := st.errors ++ [unknownPropErr rec] }
    | some pid =>
      let over := queryOverlapping st.repo pid rec.check_in rec.check_out
      if over.isEmpty then
        { st with repo := st.repo.create rec pid, imported := st.imported + 1 }
      else
        { st with
            conflicts := st.conflicts ++ over.map (mkConflict rec pid),
            conflictRows := st.conflictRows + 1 }

/-- Modelled from the spec: the row loop of detect-and-import. -/
def runDetect (dir : PropDir) (repo : Repo) (rows : List RawRow) : ImportState :=
  rows.foldl (processRowDetect dir) (initState repo)

/-- ImportReport of spec section 3. -/
structure ImportReport where
  success : Bool
  imported_count : Nat
  skipped_count : Nat
  errors : List ValidationError
  conflicts : List ConflictDescriptor
deriving DecidableEq

/-- The top-level error reported for a located table with zero data rows
(spec sections 4.1 and 7). -/
def emptySourceErr : ValidationError :=
  ⟨0, "", "the located table contains no data rows", .empty_source⟩

/-- Assemble the report of a finished invocation: success iff no errors
and no unresolved conflicts (spec section 4.5). -/
def reportOf (st : ImportState) : ImportReport :=
  ⟨st.errors.isEmpty && st.conflicts.isEmpty, st.imported, st.skipped, st.errors, st.conflicts⟩

/-- Modelled from the spec: the detect-and-import entry point (spec
section 4.5), returning the report and the repository after the call.  A
table with zero data rows yields the empty_source report and leaves the
repository untouched. -/
def detectAndImport (dir : PropDir) (repo : Repo) (rows : List RawRow) : ImportReport × Repo :=
  if rows.isEmpty then
    (⟨false, 0, 0, [emptySourceErr], []⟩, repo)
  else
    let st := runDetect dir repo rows
    (reportOf st, st.repo)

/-- Modelled from the spec: one row of resolve-conflicts (spec section
4.5).  Validation and resolution run as in detect; a row with no overlap
commits through create; a row all of whose conflicts carry a decision is
applied (any overwrite updates its targets and the row counts as
imported, all-skip discards the row as skipped); a row with any undecided
conflict is withheld again. -/
def processRowResolve (dir : PropDir) (res : List (String × Action)) (st : ImportState)
    (r : RawRow) : ImportState :=
  match (validateRow r).2 with
  | none => { st with errors := st.errors ++ (validateRow r).1 }
  | some rec =>
    match lookupByName dir rec.property_name with
    | none => { st with errors := st.errors ++ [unknownPropErr rec] }
    | some pid =>
      let over := queryOverlapping st.repo pid rec.check_in rec.check_out
      if over.isEmpty then
        { st with repo := st.repo.create rec pid, imported := st.imported + 1 }
      else if over.all (fun b => (findRes res (keyOfId b.id)).isSome) then
        let owIds := (over.filter (fun b => findRes res (keyOfId b.id) = some .overwrite)).map
          (fun b => b.id)
        if owIds.isEmpty then
          { st with skipped := st.skipped + 1 }
        else
          { st with repo := st.repo.overwriteAll owIds rec pid, imported := st.imported + 1 }
      else
        { st with
            conflicts := st.conflicts ++ over.map (mkConflict rec pid),
            conflictRows := st.conflictRows + 1 }

/-- Modelled from the spec: the row loop of resolve-conflicts. -/
def runResolve (dir : PropDir) (repo : Repo) (res : List (String × Action))
    (rows : List RawRow) : ImportState :=
  rows.foldl (processRowResolve dir res) (initState repo)

/-- Modelled from the spec: the resolve-conflicts entry point (spec
section 4.5), re-reading the same source together with a resolutions map. -/
def resolveConflicts (dir : PropDir) (repo : Repo) (res : List (String × Action))
    (rows : List RawRow) : ImportReport × Repo :=
  if rows.isEmpty then
    (⟨false, 0, 0, [emptySourceErr], []⟩, repo)
  else
    let st := runResolve dir repo res rows
    (reportOf st, st.repo)

/-- A row is valid when it yields a ParsedBookingRecord and its property
name resolves (spec section 3 invariant, syntactically valid rows). -/
def isValid (dir : PropDir) (r : RawRow) : Bool :=
  match (validateRow r).2 with
  | none => false
  | some rec => (lookupByName dir rec.property_name).isSome

/-- The number of valid rows of an input. -/
def countValid (dir : PropDir) (rows : List RawRow) : Nat :=
  rows.countP (isValid dir)


/-- The per-row update applied by an all-overwrite resolution: every
booking whose id is among the overlapped ids receives the candidate
fields. -/
def owMap (repo : Repo) (pid : Nat) (rec : ParsedBookingRecord) :
    ExistingBooking → ExistingBooking :=
  fun x =>
    if x.id ∈ (queryOverlapping repo pid rec.check_in rec.check_out).map (fun y => y.id)
    then applyOverwrite x rec pid else x

/-- A Task object as touched by TaskAdmin.save_model (api/admin.py): the
attribution fields and the history audit trail.  The Django model stores
history as a JSON-serialized list of strings; it is modelled here as the
list those bytes encode, with the decode-failure fallback of the source
collapsing to the empty list. -/
structure TaskState where
  created_by : Option Nat
  modified_by : Option Nat
  history : List String
deriving DecidableEq

/-- The admin form state seen by save_model: the changed field names plus
the initial and cleaned values per field, rendered as display strings. -/
structure FormData where
  changed_data : List String
  initial : List (String × String)
  cleaned_data : List (String × String)
deriving DecidableEq

/-- Python string formatting of an optional dictionary lookup: a missing
key renders as the text None. -/
def optStr : Option String → String
  | none => "None"
  | some s => s

/-- Dictionary lookup by key. -/
def assocGet (l : List (String × String)) (k : String) : Option String :=
  (l.find? (fun p => p.1 == k)).map (fun p => p.2)

/-- Embedded from api/admin.py, TaskAdmin.save_model: on creation (change
false) the acting user becomes created_by and modified_by and history is
set to a single creation entry; on an edit, one entry per
changed form field is appended under one timestamp and modified_by is
updated, and when no field changed the object is left untouched. -/
def save_model (username : String) (userId : Nat) (now : String) (obj : TaskState)
    (form : FormData) (change : Bool) : TaskState :=
  if change = false then
    { obj with
        created_by := some userId, modified_by := some userId,
        history := [now ++ ": " ++ username ++ " created task"] }
  else
    let changes := form.changed_data.map (fun field =>
      "changed " ++ field ++ " from \x27" ++ optStr (assocGet form.initial field) ++
        "\x27 to \x27" ++ optStr (assocGet form.cleaned_data field) ++ "\x27")
    if changes.isEmpty then obj
    else
      { obj with
          history := obj.history ++ changes.map (fun c => now ++ ": " ++ username ++ " " ++ c),
          modified_by := some userId }

theorem validateRow_record (r : RawRow) (rec : ParsedBookingRecord)
    (h : (validateRow r).2 = some rec) :
    rec.check_in < rec.check_out ∧ rec.source_row_index = r.source_row_index := by
  simp only [validateRow, parseRow] at h
  repeat' split at h
  all_goals (try (exfalso; simp_all; done))
  rw [Option.some_inj] at h
  subst h
  constructor
  · simp only []
    omega
  · rfl

theorem bad_range_errors (r : RawRow) (ci co : Nat) (h1 : r.check_in = some (.ok ci))
    (h2 : r.check_out = some (.ok co)) (h3 : co ≤ ci) :
    badRangeErr r.source_row_index ∈ (validateRow r).1 ∧ (validateRow r).2 = none := by
  constructor
  · simp only [validateRow, rowErrors, h1, h2]
    simp [h3]
  · simp only [validateRow, parseRow, h1, h2]
    repeat' split
    all_goals simp_all
    omega


theorem processRowDetect_invalid (dir : PropDir) (st : ImportState) (r : RawRow)
    (h : (validateRow r).2 = none) :
    processRowDetect dir st r = { st with errors := st.errors ++ (validateRow r).1 } := by
  unfold processRowDetect
  rw [h]

theorem processRowDetect_errors_mono (dir : PropDir) (st : ImportState) (r : RawRow)
    (e : ValidationError) (h : e ∈ st.errors) : e ∈ (processRowDetect dir st r).errors := by
  unfold processRowDetect
  repeat' split
  all_goals simp_all
  all_goals (try split)
  all_goals simp_all

theorem foldl_detect_errors_mono (dir : PropDir) (rows : List RawRow) (st : ImportState)
    (e : ValidationError) (h : e ∈ st.errors) :
    e ∈ (rows.foldl (processRowDetect dir) st).errors := by
  induction rows generalizing st with
  | nil => simpa using h
  | cons a l ih => exact ih _ (processRowDetect_errors_mono dir st a e h)

theorem foldl_detect_invalid_mem (dir : PropDir) (rows : List RawRow) (st : ImportState)
    (r : RawRow) (hr : r ∈ rows) (hinv : (validateRow r).2 = none)
    (e : ValidationError) (he : e ∈ (validateRow r).1) :
    e ∈ (rows.foldl (processRowDetect dir) st).errors := by
  revert hr
  induction rows generalizing st with
  | nil => intro hr; cases hr
  | cons a l ih =>
    intro hr
    rcases List.mem_cons.mp hr with hr | hr
    · subst hr
      refine foldl_detect_errors_mono dir l _ e ?_
      rw [processRowDetect_invalid dir st r hinv]
      simp [he]
    · exact ih _ hr

/-- Claim C1: for date ranges treated as half-open intervals, the conflict
detector reports an existing booking of the candidate property as a
conflict iff a_in is before b_out and b_in is before a_out; in particular
back-to-back pairs (a_out at or before b_in, or b_out at or before a_in)
are never reported. -/
theorem overlap_conflict_characterization (repo : Repo) (pid ci co : Nat)
    (b : ExistingBooking) (hmem : b ∈ repo.bookings) (hpid : b.property_id = pid)
    (hst : b.status ≠ .cancelled) :
    (b ∈ queryOverlapping repo pid ci co ↔ ci < b.check_out ∧ b.check_in < co) ∧
    ((co ≤ b.check_in ∨ b.check_out ≤ ci) → b ∉ queryOverlapping repo pid ci co) := by
  have hchar : b ∈ queryOverlapping repo pid ci co ↔ ci < b.check_out ∧ b.check_in < co := by
    rw [queryOverlapping, List.mem_filter]
    simp [bookingConflicts, overlaps, hmem, hpid, hst]
  refine ⟨hchar, fun h hmem2 => ?_⟩
  rcases hchar.mp hmem2 with ⟨hlt1, hlt2⟩
  omega

/-- Witness for C1 at a concrete repository and booking. -/
theorem overlap_conflict_characterization_witness :
    (((⟨5, 1, 12, 18, "E", none, .confirmed⟩ : ExistingBooking) ∈
        queryOverlapping ⟨[⟨5, 1, 12, 18, "E", none, .confirmed⟩], 6⟩ 1 10 20 ↔
      10 < 18 ∧ 12 < 20) ∧
    ((20 ≤ 12 ∨ 18 ≤ 10) → (⟨5, 1, 12, 18, "E", none, .confirmed⟩ : ExistingBooking) ∉
        queryOverlapping ⟨[⟨5, 1, 12, 18, "E", none, .confirmed⟩], 6⟩ 1 10 20)) :=
  overlap_conflict_characterization ⟨[⟨5, 1, 12, 18, "E", none, .confirmed⟩], 6⟩ 1 10 20
    ⟨5, 1, 12, 18, "E", none, .confirmed⟩ (by simp) rfl (by decide)

/-- Claim C7: a located table with zero data rows yields success false,
imported_count zero, a top-level empty_source error, and an untouched
repository, never a silent success. -/
theorem empty_source_report (dir : PropDir) (repo : Repo) :
    (detectAndImport dir repo []).1.success = false ∧
    (detectAndImport dir repo []).1.imported_count = 0 ∧
    (∃ e ∈ (detectAndImport dir repo []).1.errors, e.kind = .empty_source) ∧
    (detectAndImport dir repo []).2 = repo := by
  refine ⟨rfl, rfl, ⟨emptySourceErr, ?_, rfl⟩, rfl⟩
  simp [detectAndImport, reportOf]

/-- Claim C6: a row whose parsed check_out is at or before its check_in
yields no ParsedBookingRecord, surfaces in the report as a bad_range error
for that row, and its processing step only appends the row errors, leaving
repository, imported, skipped and conflicts untouched. -/
theorem bad_range_row_reported (dir : PropDir) (repo : Repo) (rows : List RawRow)
    (r : RawRow) (ci co : Nat) (st : ImportState) (hr : r ∈ rows)
    (h1 : r.check_in = some (.ok ci)) (h2 : r.check_out = some (.ok co)) (h3 : co ≤ ci) :
    (validateRow r).2 = none ∧
    (∃ e ∈ (detectAndImport dir repo rows).1.errors,
      e.row_index = r.source_row_index ∧ e.kind = .bad_range) ∧
    processRowDetect dir st r = { st with errors := st.errors ++ (validateRow r).1 } := by
  obtain ⟨hmem, hnone⟩ := bad_range_errors r ci co h1 h2 h3
  refine ⟨hnone, ?_, processRowDetect_invalid dir st r hnone⟩
  have hne : rows ≠ [] := List.ne_nil_of_mem hr
  refine ⟨badRangeErr r.source_row_index, ?_, rfl, rfl⟩
  have herr : (detectAndImport dir repo rows).1.errors = (runDetect dir repo rows).errors := by
    simp [detectAndImport, List.isEmpty_iff, hne, reportOf]
  rw [herr]
  exact foldl_detect_invalid_mem dir rows _ r hr hnone _ hmem

/-- Witness for C6 at a concrete one-row input. -/
theorem bad_range_row_reported_witness :
    (validateRow ⟨2, some "P1", some (.ok 20), some (.ok 10), some "G", none, none⟩).2 = none ∧
    (∃ e ∈ (detectAndImport [(1, "P1")] ⟨[], 0⟩
        [⟨2, some "P1", some (.ok 20), some (.ok 10), some "G", none, none⟩]).1.errors,
      e.row_index = (⟨2, some "P1", some (.ok 20), some (.ok 10), some "G", none,
        none⟩ : RawRow).source_row_index ∧ e.kind = .bad_range) ∧
    processRowDetect [(1, "P1")] (initState ⟨[], 0⟩)
        ⟨2, some "P1", some (.ok 20), some (.ok 10), some "G", none, none⟩ =
      { initState ⟨[], 0⟩ with
          errors := (initState ⟨[], 0⟩).errors ++
            (validateRow ⟨2, some "P1", some (.ok 20), some (.ok 10), some "G", none,
              none⟩).1 } :=
  bad_range_row_reported [(1, "P1")] ⟨[], 0⟩
    [⟨2, some "P1", some (.ok 20), some (.ok 10), some "G", none, none⟩]
    ⟨2, some "P1", some (.ok 20), some (.ok 10), some "G", none, none⟩ 20 10
    (initState ⟨[], 0⟩) (by simp) rfl rfl (by decide)


theorem processRowDetect_length (dir : PropDir) (st : ImportState) (r : RawRow) :
    (processRowDetect dir st r).repo.bookings.length + st.imported =
      st.repo.bookings.length + (processRowDetect dir st r).imported := by
  simp only [processRowDetect]
  repeat' split
  all_goals (try simp_all [Repo.create])
  all_goals omega

theorem foldl_detect_length (dir : PropDir) (rows : List RawRow) (st : ImportState) :
    (rows.foldl (processRowDetect dir) st).repo.bookings.length + st.imported =
      st.repo.bookings.length + (rows.foldl (processRowDetect dir) st).imported := by
  induction rows generalizing st with
  | nil => rfl
  | cons a l ih =>
    have h1 := processRowDetect_length dir st a
    have h2 := ih (processRowDetect dir st a)
    simp only [List.foldl_cons] at *
    omega

/-- Claim C2: for every report produced by detect-and-import, success holds
iff both the errors list and the conflicts list are empty, and
imported_count equals the number of bookings actually committed to the
repository by the call, success or not. -/
theorem report_success_and_committed_count (dir : PropDir) (repo : Repo)
    (rows : List RawRow) :
    ((detectAndImport dir repo rows).1.success = true ↔
      (detectAndImport dir repo rows).1.errors = [] ∧
      (detectAndImport dir repo rows).1.conflicts = []) ∧
    (detectAndImport dir repo rows).2.bookings.length =
      repo.bookings.length + (detectAndImport dir repo rows).1.imported_count := by
  by_cases hne : rows.isEmpty
  · rw [List.isEmpty_iff] at hne
    subst hne
    constructor
    · simp [detectAndImport]
    · simp [detectAndImport]
  · constructor
    · simp [detectAndImport, hne, reportOf, List.isEmpty_iff]
    · have h := foldl_detect_length dir rows (initState repo)
      simp only [initState] at h
      simp [detectAndImport, hne, reportOf, runDetect, initState]
      omega

/-- Witness for C2 at a concrete one-row input. -/
theorem report_success_and_committed_count_witness :
    ((detectAndImport [(1, "P1")] ⟨[], 0⟩
        [⟨1, some "P1", some (.ok 10), some (.ok 20), some "G", none, none⟩]).1.success = true ↔
      (detectAndImport [(1, "P1")] ⟨[], 0⟩
        [⟨1, some "P1", some (.ok 10), some (.ok 20), some "G", none, none⟩]).1.errors = [] ∧
      (detectAndImport [(1, "P1")] ⟨[], 0⟩
        [⟨1, some "P1", some (.ok 10), some (.ok 20), some "G", none, none⟩]).1.conflicts = []) ∧
    (detectAndImport [(1, "P1")] ⟨[], 0⟩
        [⟨1, some "P1", some (.ok 10), some (.ok 20), some "G", none, none⟩]).2.bookings.length =
      (⟨[], 0⟩ : Repo).bookings.length +
        (detectAndImport [(1, "P1")] ⟨[], 0⟩
          [⟨1, some "P1", some (.ok 10), some (.ok 20), some "G", none, none⟩]).1.imported_count :=
  report_success_and_committed_count [(1, "P1")] ⟨[], 0⟩
    [⟨1, some "P1", some (.ok 10), some (.ok 20), some "G", none, none⟩]

theorem processRowDetect_counters (dir : PropDir) (st : ImportState) (r : RawRow) :
    (processRowDetect dir st r).imported + (processRowDetect dir st r).skipped +
      (processRowDetect dir st r).conflictRows =
    st.imported + st.skipped + st.conflictRows + (if isValid dir r then 1 else 0) := by
  simp only [processRowDetect, isValid]
  repeat' split
  all_goals (try simp_all)
  all_goals omega

theorem processRowResolve_counters (dir : PropDir) (res : List (String × Action))
    (st : ImportState) (r : RawRow) :
    (processRowResolve dir res st r).imported + (processRowResolve dir res st r).skipped +
      (processRowResolve dir res st r).conflictRows =
    st.imported + st.skipped + st.conflictRows + (if isValid dir r then 1 else 0) := by
  simp only [processRowResolve, isValid]
  repeat' split
  all_goals (try simp_all)
  all_goals omega

theorem foldl_detect_counters (dir : PropDir) (rows : List RawRow) (st : ImportState) :
    (rows.foldl (processRowDetect dir) st).imported +
      (rows.foldl (processRowDetect dir) st).skipped +
      (rows.foldl (processRowDetect dir) st).conflictRows =
    st.imported + st.skipped + st.conflictRows + countValid dir rows := by
  induction rows generalizing st with
  | nil => simp [countValid]
  | cons a l ih =>
    have h1 := processRowDetect_counters dir st a
    have h2 := ih (processRowDetect dir st a)
    simp only [List.foldl_cons] at *
    rw [h2, h1]
    simp [countValid, List.countP_cons]
    split
    all_goals simp_all
    all_goals omega

theorem foldl_resolve_counters (dir : PropDir) (res : List (String × Action))
    (rows : List RawRow) (st : ImportState) :
    (rows.foldl (processRowResolve dir res) st).imported +
      (rows.foldl (processRowResolve dir res) st).skipped +
      (rows.foldl (processRowResolve dir res) st).conflictRows =
    st.imported + st.skipped + st.conflictRows + countValid dir rows := by
  induction rows generalizing st with
  | nil => simp [countValid]
  | cons a l ih =>
    have h1 := processRowResolve_counters dir res st a
    have h2 := ih (processRowResolve dir res st a)
    simp only [List.foldl_cons] at *
    rw [h2, h1]
    simp [countValid, List.countP_cons]
    split
    all_goals simp_all
    all_goals omega

/-- Claim C3: every detect-and-import and every resolve-conflicts
invocation satisfies imported_count plus skipped_count plus the number of
rows withheld with unresolved conflicts equals the number of valid rows of
the input. -/
theorem counters_partition_valid_rows (dir : PropDir) (repo : Repo)
    (res : List (String × Action)) (rows : List RawRow) :
    (detectAndImport dir repo rows).1.imported_count +
        (detectAndImport dir repo rows).1.skipped_count +
        (runDetect dir repo rows).conflictRows = countValid dir rows ∧
    (resolveConflicts dir repo res rows).1.imported_count +
        (resolveConflicts dir repo res rows).1.skipped_count +
        (runResolve dir repo res rows).conflictRows = countValid dir rows := by
  by_cases hne : rows.isEmpty
  · rw [List.isEmpty_iff] at hne
    subst hne
    constructor
    · simp [detectAndImport, runDetect, initState, countValid]
    · simp [resolveConflicts, runResolve, initState, countValid]
  · constructor
    · have h := foldl_detect_counters dir rows (initState repo)
      simp only [initState] at h
      simp [detectAndImport, hne, reportOf, runDetect, initState]
      omega
    · have h := foldl_resolve_counters dir res rows (initState repo)
      simp only [initState] at h
      simp [resolveConflicts, hne, reportOf, runResolve, initState]
      omega


theorem processRowDetect_unknown (dir : PropDir) (st : ImportState) (r : RawRow)
    (rec : ParsedBookingRecord) (hrec : (validateRow r).2 = some rec)
    (hpid : lookupByName dir rec.property_name = none) :
    processRowDetect dir st r = { st with errors := st.errors ++ [unknownPropErr rec] } := by
  simp only [processRowDetect, hrec, hpid]

theorem processRowDetect_commit (dir : PropDir) (st : ImportState) (r : RawRow)
    (rec : ParsedBookingRecord) (pid : Nat) (hrec : (validateRow r).2 = some rec)
    (hpid : lookupByName dir rec.property_name = some pid)
    (hemp : queryOverlapping st.repo pid rec.check_in rec.check_out = []) :
    processRowDetect dir st r =
      { st with repo := st.repo.create rec pid, imported := st.imported + 1 } := by
  simp only [processRowDetect, hrec, hpid, hemp]
  simp

theorem processRowDetect_conflict (dir : PropDir) (st : ImportState) (r : RawRow)
    (rec : ParsedBookingRecord) (pid : Nat) (hrec : (validateRow r).2 = some rec)
    (hpid : lookupByName dir rec.property_name = some pid)
    (hne : queryOverlapping st.repo pid rec.check_in rec.check_out ≠ []) :
    processRowDetect dir st r =
      { st with
          conflicts := st.conflicts ++
            (queryOverlapping st.repo pid rec.check_in rec.check_out).map (mkConflict rec pid),
          conflictRows := st.conflictRows + 1 } := by
  simp only [processRowDetect, hrec, hpid, List.isEmpty_eq_false.mpr hne]
  simp

theorem processRowResolve_invalid (dir : PropDir) (res : List (String × Action))
    (st : ImportState) (r : RawRow) (h : (validateRow r).2 = none) :
    processRowResolve dir res st r = { st with errors := st.errors ++ (validateRow r).1 } := by
  unfold processRowResolve
  rw [h]

theorem processRowResolve_unknown (dir : PropDir) (res : List (String × Action))
    (st : ImportState) (r : RawRow) (rec : ParsedBookingRecord)
    (hrec : (validateRow r).2 = some rec)
    (hpid : lookupByName dir rec.property_name = none) :
    processRowResolve dir res st r = { st with errors := st.errors ++ [unknownPropErr rec] } := by
  simp only [processRowResolve, hrec, hpid]

theorem processRowResolve_commit (dir : PropDir) (res : List (String × Action))
    (st : ImportState) (r : RawRow) (rec : ParsedBookingRecord) (pid : Nat)
    (hrec : (validateRow r).2 = some rec)
    (hpid : lookupByName dir rec.property_name = some pid)
    (hemp : queryOverlapping st.repo pid rec.check_in rec.check_out = []) :
    processRowResolve dir res st r =
      { st with repo := st.repo.create rec pid, imported := st.imported + 1 } := by
  simp only [processRowResolve, hrec, hpid, hemp]
  simp

theorem processRowResolve_skip (dir : PropDir) (res : List (String × Action))
    (st : ImportState) (r : RawRow) (rec : ParsedBookingRecord) (pid : Nat)
    (hrec : (validateRow r).2 = some rec)
    (hpid : lookupByName dir rec.property_name = some pid)
    (hne : queryOverlapping st.repo pid rec.check_in rec.check_out ≠ [])
    (hdec : ∀ b ∈ queryOverlapping st.repo pid rec.check_in rec.check_out,
      (findRes res (keyOfId b.id)).isSome = true)
    (how : ((queryOverlapping st.repo pid rec.check_in rec.check_out).filter
        (fun b => findRes res (keyOfId b.id) = some Action.overwrite)).map
          (fun b => b.id) = []) :
    processRowResolve dir res st r = { st with skipped := st.skipped + 1 } := by
  simp only [processRowResolve, hrec, hpid, List.isEmpty_eq_false.mpr hne,
    List.all_eq_true.mpr hdec, how]
  simp

theorem processRowResolve_overwrite (dir : PropDir) (res : List (String × Action))
    (st : ImportState) (r : RawRow) (rec : ParsedBookingRecord) (pid : Nat)
    (hrec : (validateRow r).2 = some rec)
    (hpid : lookupByName dir rec.property_name = some pid)
    (hne : queryOverlapping st.repo pid rec.check_in rec.check_out ≠ [])
    (hdec : ∀ b ∈ queryOverlapping st.repo pid rec.check_in rec.check_out,
      (findRes res (keyOfId b.id)).isSome = true)
    (how : ((queryOverlapping st.repo pid rec.check_in rec.check_out).filter
        (fun b => findRes res (keyOfId b.id) = some Action.overwrite)).map
          (fun b => b.id) ≠ []) :
    processRowResolve dir res st r =
      { st with
          repo := st.repo.overwriteAll
            (((queryOverlapping st.repo pid rec.check_in rec.check_out).filter
              (fun b => findRes res (keyOfId b.id) = some Action.overwrite)).map
                (fun b => b.id)) rec pid,
          imported := st.imported + 1 } := by
  simp only [processRowResolve, hrec, hpid, List.isEmpty_eq_false.mpr hne,
    List.all_eq_true.mpr hdec, List.isEmpty_eq_false.mpr how]
  simp

theorem processRowResolve_undecided (dir : PropDir) (res : List (String × Action))
    (st : ImportState) (r : RawRow) (rec : ParsedBookingRecord) (pid : Nat)
    (hrec : (validateRow r).2 = some rec)
    (hpid : lookupByName dir rec.property_name = some pid)
    (hne : queryOverlapping st.repo pid rec.check_in rec.check_out ≠ [])
    (hund : ¬ ∀ b ∈ queryOverlapping st.repo pid rec.check_in rec.check_out,
      (findRes res (keyOfId b.id)).isSome = true) :
    processRowResolve dir res st r =
      { st with
          conflicts := st.conflicts ++
            (queryOverlapping st.repo pid rec.check_in rec.check_out).map (mkConflict rec pid),
          conflictRows := st.conflictRows + 1 } := by
  have hall : (queryOverlapping st.repo pid rec.check_in rec.check_out).all
      (fun b => (findRes res (keyOfId b.id)).isSome) = false := by
    rw [← Bool.not_eq_true, List.all_eq_true]
    exact hund
  simp only [processRowResolve, hrec, hpid, List.isEmpty_eq_false.mpr hne, hall]
  simp


theorem findRes_const_mem (l : List ExistingBooking) (b : ExistingBooking) (a : Action)
    (hb : b ∈ l) :
    findRes (l.map (fun x => (keyOfId x.id, a))) (keyOfId b.id) = some a := by
  induction l with
  | nil => cases hb
  | cons x xs ih =>
    by_cases hk : (keyOfId x.id == keyOfId b.id) = true
    · simp [findRes, List.find?, hk]
    · rcases List.mem_cons.mp hb with hb | hb
      · subst hb
        simp at hk
      · simp only [findRes, List.map_cons, List.find?, hk]
        exact ih hb

/-- Counterexample for C4: the identical single-row file content imported
against two repositories that assigned different ids to the same existing
booking yields different conflict keys, so the key is not a function of
file content and row position alone. -/
theorem conflict_key_repo_dependent :
    (runDetect [(1, "P1")] ⟨[⟨5, 1, 12, 18, "E", none, .confirmed⟩], 6⟩
        [⟨1, some "P1", some (.ok 10), some (.ok 20), some "G", none, none⟩]).conflicts.map
      conflictKey = ["5"] ∧
    (runDetect [(1, "P1")] ⟨[⟨7, 1, 12, 18, "E", none, .confirmed⟩], 8⟩
        [⟨1, some "P1", some (.ok 10), some (.ok 20), some "G", none, none⟩]).conflicts.map
      conflictKey = ["7"] := by
  constructor <;> decide

/-- Claim C4 (amended): the conflict key is the decimal string of the
overlapped existing booking repository id, hence determined by the file
content together with the repository state rather than by file content and
row position alone; with a shared repository it is stable across calls:
for a single-row source on which detect commits nothing, a later resolve
call over the same bytes and repository, using a resolutions map built
from the detect report keys, matches every conflict and leaves none
undecided. -/
theorem conflict_key_matches_resolve (dir : PropDir) (repo : Repo) (r : RawRow)
    (h : (runDetect dir repo [r]).imported = 0) :
    (∀ c ∈ (runDetect dir repo [r]).conflicts,
      conflictKey c = keyOfId c.existing_booking_id) ∧
    (runResolve dir repo ((runDetect dir repo [r]).conflicts.map
        (fun c => (conflictKey c, Action.overwrite))) [r]).conflictRows = 0 ∧
    (runResolve dir repo ((runDetect dir repo [r]).conflicts.map
        (fun c => (conflictKey c, Action.overwrite))) [r]).conflicts = [] := by
  refine ⟨fun c _ => rfl, ?_⟩
  have hrd : runDetect dir repo [r] = processRowDetect dir (initState repo) r := by
    simp [runDetect]
  have hrr : ∀ res, runResolve dir repo res [r] = processRowResolve dir res (initState repo) r := by
    intro res
    simp [runResolve]
  rcases hv : (validateRow r).2 with _ | rec
  · rw [hrr, processRowResolve_invalid _ _ _ r hv]
    simp [initState]
  · rcases hp : lookupByName dir rec.property_name with _ | pid
    · rw [hrr, processRowResolve_unknown _ _ _ r rec hv hp]
      simp [initState]
    · by_cases hq : queryOverlapping repo pid rec.check_in rec.check_out = []
      · exfalso
        rw [hrd, processRowDetect_commit dir _ r rec pid hv hp hq] at h
        simp [initState] at h
      · have hne : queryOverlapping (initState repo).repo pid rec.check_in rec.check_out ≠ [] := hq
        have hcl : (runDetect dir repo [r]).conflicts =
            (queryOverlapping repo pid rec.check_in rec.check_out).map (mkConflict rec pid) := by
          rw [hrd, processRowDetect_conflict dir (initState repo) r rec pid hv hp hne]
          simp [initState]
        have hres2 : (runDetect dir repo [r]).conflicts.map
            (fun c => (conflictKey c, Action.overwrite)) =
            (queryOverlapping repo pid rec.check_in rec.check_out).map
              (fun b => (keyOfId b.id, Action.overwrite)) := by
          rw [hcl, List.map_map]
          rfl
        have hdec : ∀ b2 ∈ queryOverlapping (initState repo).repo pid rec.check_in rec.check_out,
            (findRes ((runDetect dir repo [r]).conflicts.map
              (fun c => (conflictKey c, Action.overwrite))) (keyOfId b2.id)).isSome = true := by
          intro b2 hb2
          rw [hres2]
          have hfm := findRes_const_mem (queryOverlapping repo pid rec.check_in rec.check_out)
            b2 Action.overwrite hb2
          rw [hfm]
          rfl
        rw [hrr]
        by_cases how : ((queryOverlapping (initState repo).repo pid rec.check_in
            rec.check_out).filter
            (fun b2 => findRes ((runDetect dir repo [r]).conflicts.map
              (fun c => (conflictKey c, Action.overwrite))) (keyOfId b2.id) =
                some Action.overwrite)).map (fun b2 => b2.id) = []
        · rw [processRowResolve_skip _ _ _ r rec pid hv hp hne hdec how]
          simp [initState]
        · rw [processRowResolve_overwrite _ _ _ r rec pid hv hp hne hdec how]
          simp [initState]

/-- Witness for the amended C4 at a concrete repository and row. -/
theorem conflict_key_matches_resolve_witness :
    (∀ c ∈ (runDetect [(1, "P1")] ⟨[⟨5, 1, 12, 18, "E", none, .confirmed⟩], 6⟩
        [⟨1, some "P1", some (.ok 10), some (.ok 20), some "G", none, none⟩]).conflicts,
      conflictKey c = keyOfId c.existing_booking_id) ∧
    (runResolve [(1, "P1")] ⟨[⟨5, 1, 12, 18, "E", none, .confirmed⟩], 6⟩
        ((runDetect [(1, "P1")] ⟨[⟨5, 1, 12, 18, "E", none, .confirmed⟩], 6⟩
          [⟨1, some "P1", some (.ok 10), some (.ok 20), some "G", none, none⟩]).conflicts.map
            (fun c => (conflictKey c, Action.overwrite)))
        [⟨1, some "P1", some (.ok 10), some (.ok 20), some "G", none, none⟩]).conflictRows = 0 ∧
    (runResolve [(1, "P1")] ⟨[⟨5, 1, 12, 18, "E", none, .confirmed⟩], 6⟩
        ((runDetect [(1, "P1")] ⟨[⟨5, 1, 12, 18, "E", none, .confirmed⟩], 6⟩
          [⟨1, some "P1", some (.ok 10), some (.ok 20), some "G", none, none⟩]).conflicts.map
            (fun c => (conflictKey c, Action.overwrite)))
        [⟨1, some "P1", some (.ok 10), some (.ok 20), some "G", none, none⟩]).conflicts = [] :=
  conflict_key_matches_resolve [(1, "P1")] ⟨[⟨5, 1, 12, 18, "E", none, .confirmed⟩], 6⟩
    ⟨1, some "P1", some (.ok 10), some (.ok 20), some "G", none, none⟩ (by decide)


theorem overwriteAll_length (repo : Repo) (ids : List Nat) (rec : ParsedBookingRecord)
    (pid : Nat) :
    (repo.overwriteAll ids rec pid).bookings.length = repo.bookings.length := by
  simp [Repo.overwriteAll]

theorem overwriteAll_mem_target (repo : Repo) (ids : List Nat) (rec : ParsedBookingRecord)
    (pid : Nat) (b : ExistingBooking) (hb : b ∈ repo.bookings) (hid : b.id ∈ ids) :
    applyOverwrite b rec pid ∈ (repo.overwriteAll ids rec pid).bookings := by
  simp only [Repo.overwriteAll, List.mem_map]
  exact ⟨b, hb, by simp [hid]⟩

/-- Claim C8: a conflict resolved with decision overwrite makes
resolve-conflicts update the targeted existing booking with the candidate
fields while keeping its id and creating no new booking, and the resolved
row counts toward imported_count. -/
theorem overwrite_updates_target (dir : PropDir) (repo : Repo)
    (res : List (String × Action)) (r : RawRow) (rec : ParsedBookingRecord) (pid : Nat)
    (b : ExistingBooking)
    (hrec : (validateRow r).2 = some rec)
    (hpid : lookupByName dir rec.property_name = some pid)
    (hb : b ∈ queryOverlapping repo pid rec.check_in rec.check_out)
    (hdec : ∀ x ∈ queryOverlapping repo pid rec.check_in rec.check_out,
      (findRes res (keyOfId x.id)).isSome = true)
    (hov : findRes res (keyOfId b.id) = some Action.overwrite) :
    (runResolve dir repo res [r]).repo.bookings.length = repo.bookings.length ∧
    (∃ b2 ∈ (runResolve dir repo res [r]).repo.bookings,
      b2.id = b.id ∧ b2.check_in = rec.check_in ∧ b2.check_out = rec.check_out ∧
      b2.guest_name = rec.guest_name ∧ b2.guest_contact = rec.guest_contact ∧
      b2.status = rec.status) ∧
    (runResolve dir repo res [r]).imported = 1 := by
  have hrr : runResolve dir repo res [r] = processRowResolve dir res (initState repo) r := by
    simp [runResolve]
  have hne : queryOverlapping repo pid rec.check_in rec.check_out ≠ [] :=
    List.ne_nil_of_mem hb
  have hbid : b.id ∈ ((queryOverlapping repo pid rec.check_in rec.check_out).filter
      (fun x => findRes res (keyOfId x.id) = some Action.overwrite)).map (fun x => x.id) :=
    List.mem_map_of_mem _ (List.mem_filter.mpr ⟨hb, by simp [hov]⟩)
  have how : ((queryOverlapping repo pid rec.check_in rec.check_out).filter
      (fun x => findRes res (keyOfId x.id) = some Action.overwrite)).map (fun x => x.id) ≠ [] :=
    List.ne_nil_of_mem hbid
  have hstep := processRowResolve_overwrite dir res (initState repo) r rec pid hrec hpid hne hdec how
  rw [hrr, hstep]
  refine ⟨overwriteAll_length repo _ rec pid, ⟨applyOverwrite b rec pid, ?_, rfl, rfl, rfl, rfl,
    rfl, rfl⟩, rfl⟩
  have hbrepo : b ∈ repo.bookings := (List.mem_filter.mp hb).1
  exact overwriteAll_mem_target repo _ rec pid b hbrepo hbid

/-- Witness for C8 at a concrete repository, row and resolutions map. -/
theorem overwrite_updates_target_witness :
    (runResolve [(1, "P1")] ⟨[⟨5, 1, 12, 18, "E", none, .confirmed⟩], 6⟩ [("5", .overwrite)]
        [⟨1, some "P1", some (.ok 10), some (.ok 20), some "G", none, none⟩]).repo.bookings.length =
      (⟨[⟨5, 1, 12, 18, "E", none, .confirmed⟩], 6⟩ : Repo).bookings.length ∧
    (∃ b2 ∈ (runResolve [(1, "P1")] ⟨[⟨5, 1, 12, 18, "E", none, .confirmed⟩], 6⟩
        [("5", .overwrite)]
        [⟨1, some "P1", some (.ok 10), some (.ok 20), some "G", none, none⟩]).repo.bookings,
      b2.id = (⟨5, 1, 12, 18, "E", none, .confirmed⟩ : ExistingBooking).id ∧
      b2.check_in = 10 ∧ b2.check_out = 20 ∧ b2.guest_name = "G" ∧ b2.guest_contact = none ∧
      b2.status = .confirmed) ∧
    (runResolve [(1, "P1")] ⟨[⟨5, 1, 12, 18, "E", none, .confirmed⟩], 6⟩ [("5", .overwrite)]
        [⟨1, some "P1", some (.ok 10), some (.ok 20), some "G", none, none⟩]).imported = 1 :=
  overwrite_updates_target [(1, "P1")] ⟨[⟨5, 1, 12, 18, "E", none, .confirmed⟩], 6⟩
    [("5", .overwrite)] ⟨1, some "P1", some (.ok 10), some (.ok 20), some "G", none, none⟩
    ⟨"P1", 10, 20, "G", none, .confirmed, 1⟩ 1 ⟨5, 1, 12, 18, "E", none, .confirmed⟩
    (by decide) (by decide) (by decide) (by decide) (by decide)



theorem applyOverwrite_idem (b : ExistingBooking) (rec : ParsedBookingRecord) (pid : Nat) :
    applyOverwrite (applyOverwrite b rec pid) rec pid = applyOverwrite b rec pid := rfl

theorem owMap_id (repo : Repo) (pid : Nat) (rec : ParsedBookingRecord) (x : ExistingBooking) :
    (owMap repo pid rec x).id = x.id := by
  unfold owMap
  by_cases h : x.id ∈ (queryOverlapping repo pid rec.check_in rec.check_out).map (fun y => y.id)
  · simp [h, applyOverwrite]
  · simp [h]

theorem find?_map_of_id (g : ExistingBooking → ExistingBooking)
    (hg : ∀ x, (g x).id = x.id) (l : List ExistingBooking) (i : Nat) :
    (l.map g).find? (fun x => x.id == i) = (l.find? (fun x => x.id == i)).map g := by
  induction l with
  | nil => rfl
  | cons x xs ih =>
    simp only [List.map_cons, List.find?, hg x]
    cases hx : (x.id == i)
    · simpa using ih
    · simp

/-- Claim C9: applying the same overwrite resolution to the same conflict a
second time is idempotent: running resolve-conflicts again over the same
single-row source and resolutions map, starting from the repository the
first run produced, leaves the targeted booking in the same state as after
the first run. -/
theorem overwrite_idempotent_target (dir : PropDir) (repo : Repo)
    (res : List (String × Action)) (r : RawRow) (rec : ParsedBookingRecord) (pid : Nat)
    (b : ExistingBooking)
    (hrec : (validateRow r).2 = some rec)
    (hpid : lookupByName dir rec.property_name = some pid)
    (hb : b ∈ queryOverlapping repo pid rec.check_in rec.check_out)
    (hq : ∀ x ∈ queryOverlapping repo pid rec.check_in rec.check_out,
      findRes res (keyOfId x.id) = some Action.overwrite) :
    (runResolve dir (runResolve dir repo res [r]).repo res [r]).repo.bookings.find?
        (fun x => x.id == b.id) =
      (runResolve dir repo res [r]).repo.bookings.find? (fun x => x.id == b.id) := by
  obtain ⟨hlt, -⟩ := validateRow_record r rec hrec
  have hbl0 : b ∈ repo.bookings := (List.mem_filter.mp hb).1
  have hdec1 : ∀ x ∈ queryOverlapping repo pid rec.check_in rec.check_out,
      (findRes res (keyOfId x.id)).isSome = true := by
    intro x hx
    rw [hq x hx]
    rfl
  have hfilter1 : (queryOverlapping repo pid rec.check_in rec.check_out).filter
      (fun x => findRes res (keyOfId x.id) = some Action.overwrite) =
      queryOverlapping repo pid rec.check_in rec.check_out := by
    apply List.filter_eq_self.mpr
    intro x hx
    simp [hq x hx]
  have hne1 : queryOverlapping repo pid rec.check_in rec.check_out ≠ [] :=
    List.ne_nil_of_mem hb
  have hbidow : b.id ∈ (queryOverlapping repo pid rec.check_in rec.check_out).map
      (fun y => y.id) := List.mem_map_of_mem _ hb
  have how1 : ((queryOverlapping repo pid rec.check_in rec.check_out).filter
      (fun x => findRes res (keyOfId x.id) = some Action.overwrite)).map
        (fun x => x.id) ≠ [] := by
    rw [hfilter1]
    exact List.ne_nil_of_mem hbidow
  have hbk1 : (runResolve dir repo res [r]).repo.bookings =
      repo.bookings.map (owMap repo pid rec) := by
    have hrr1 : runResolve dir repo res [r] = processRowResolve dir res (initState repo) r := by
      simp [runResolve]
    rw [hrr1, processRowResolve_overwrite dir res (initState repo) r rec pid hrec hpid hne1
      hdec1 how1]
    simp only [Repo.overwriteAll, initState, hfilter1]
    rfl
  have hsome1 : (repo.bookings.find? (fun x => x.id == b.id)).isSome = true :=
    List.find?_isSome.mpr ⟨b, hbl0, by simp⟩
  obtain ⟨b0, hb0⟩ := Option.isSome_iff_exists.mp hsome1
  have hb0id : b0.id = b.id := by
    have := List.find?_some hb0
    simpa using this
  have hchase1 : (runResolve dir repo res [r]).repo.bookings.find? (fun x => x.id == b.id) =
      some (owMap repo pid rec b0) := by
    rw [hbk1, find?_map_of_id (owMap repo pid rec) (owMap_id repo pid rec) repo.bookings b.id,
      hb0]
    rfl
  have hfb0 : owMap repo pid rec b0 = applyOverwrite b0 rec pid := by
    unfold owMap
    rw [hb0id]
    simp [hbidow]
  have hrr2 : runResolve dir (runResolve dir repo res [r]).repo res [r] =
      processRowResolve dir res (initState (runResolve dir repo res [r]).repo) r := by
    simp [runResolve]
  by_cases hpv : rec.status = .cancelled
  · -- the overwritten copies are cancelled: the rerun finds no conflict and
    -- commits a fresh booking, leaving the target untouched
    have hover2 : queryOverlapping (runResolve dir repo res [r]).repo pid rec.check_in
        rec.check_out = [] := by
      show (runResolve dir repo res [r]).repo.bookings.filter
          (bookingConflicts pid rec.check_in rec.check_out) = []
      rw [hbk1, List.filter_eq_nil_iff]
      intro y hy
      obtain ⟨x, hx, rfl⟩ := List.mem_map.mp hy
      unfold owMap
      by_cases h : x.id ∈ (queryOverlapping repo pid rec.check_in rec.check_out).map
          (fun y => y.id)
      · simp [h, bookingConflicts, applyOverwrite, hpv]
      · simp only [h, if_false]
        intro hpx
        exact h (List.mem_map_of_mem _ (List.mem_filter.mpr ⟨hx, hpx⟩))
    rw [hrr2, processRowResolve_commit dir res (initState (runResolve dir repo res [r]).repo)
      r rec pid hrec hpid hover2]
    simp only [initState, Repo.create]
    rw [List.find?_append, hchase1]
    rfl
  · -- the overwritten copies still conflict and are overwritten again with
    -- the same fields
    have hpred_ow : ∀ x : ExistingBooking,
        bookingConflicts pid rec.check_in rec.check_out (applyOverwrite x rec pid) = true := by
      intro x
      simp [bookingConflicts, applyOverwrite, overlaps, hlt, hpv]
    have hover2 : queryOverlapping (runResolve dir repo res [r]).repo pid rec.check_in
        rec.check_out =
        (repo.bookings.filter (fun x => decide (x.id ∈ (queryOverlapping repo pid rec.check_in
          rec.check_out).map (fun y => y.id)))).map (owMap repo pid rec) := by
      show (runResolve dir repo res [r]).repo.bookings.filter
          (bookingConflicts pid rec.check_in rec.check_out) = _
      rw [hbk1, List.filter_map]
      congr 1
      apply List.filter_congr
      intro x hx
      by_cases h : x.id ∈ (queryOverlapping repo pid rec.check_in rec.check_out).map
          (fun y => y.id)
      · rw [decide_eq_true h]
        simp [Function.comp, owMap, h, hpred_ow x]
      · rw [decide_eq_false h]
        have hpx : bookingConflicts pid rec.check_in rec.check_out x = false := by
          cases hc : bookingConflicts pid rec.check_in rec.check_out x
          · rfl
          · exact absurd (List.mem_map_of_mem (fun y => y.id)
              (List.mem_filter.mpr ⟨hx, hc⟩)) h
        simp [Function.comp, owMap, h, hpx]
    have hfbmem : owMap repo pid rec b ∈ queryOverlapping (runResolve dir repo res [r]).repo
        pid rec.check_in rec.check_out := by
      rw [hover2]
      exact List.mem_map_of_mem _ (List.mem_filter.mpr ⟨hbl0, by simp [hbidow]⟩)
    have hne2 : queryOverlapping (runResolve dir repo res [r]).repo pid rec.check_in
        rec.check_out ≠ [] := List.ne_nil_of_mem hfbmem
    have hq2 : ∀ y ∈ queryOverlapping (runResolve dir repo res [r]).repo pid rec.check_in
        rec.check_out, findRes res (keyOfId y.id) = some Action.overwrite := by
      intro y hy
      rw [hover2] at hy
      obtain ⟨x, hx, rfl⟩ := List.mem_map.mp hy
      have hxid : x.id ∈ (queryOverlapping repo pid rec.check_in rec.check_out).map
          (fun y => y.id) := by
        have := (List.mem_filter.mp hx).2
        simpa using this
      obtain ⟨z, hz, hzid⟩ := List.mem_map.mp hxid
      rw [owMap_id repo pid rec x, ← hzid]
      exact hq z hz
    have hdec2 : ∀ y ∈ queryOverlapping (runResolve dir repo res [r]).repo pid rec.check_in
        rec.check_out, (findRes res (keyOfId y.id)).isSome = true := by
      intro y hy
      rw [hq2 y hy]
      rfl
    have hfilter2 : (queryOverlapping (runResolve dir repo res [r]).repo pid rec.check_in
        rec.check_out).filter (fun x => findRes res (keyOfId x.id) = some Action.overwrite) =
        queryOverlapping (runResolve dir repo res [r]).repo pid rec.check_in rec.check_out := by
      apply List.filter_eq_self.mpr
      intro x hx
      simp [hq2 x hx]
    have hbid2 : b.id ∈ (queryOverlapping (runResolve dir repo res [r]).repo pid rec.check_in
        rec.check_out).map (fun y => y.id) := by
      have := List.mem_map_of_mem (fun y => y.id) hfbmem
      simpa [owMap_id repo pid rec b] using this
    have how2 : ((queryOverlapping (runResolve dir repo res [r]).repo pid rec.check_in
        rec.check_out).filter (fun x => findRes res (keyOfId x.id) = some Action.overwrite)).map
          (fun x => x.id) ≠ [] := by
      rw [hfilter2]
      exact List.ne_nil_of_mem hbid2
    have hbk2 : (runResolve dir (runResolve dir repo res [r]).repo res [r]).repo.bookings =
        (runResolve dir repo res [r]).repo.bookings.map
          (owMap (runResolve dir repo res [r]).repo pid rec) := by
      rw [hrr2, processRowResolve_overwrite dir res (initState (runResolve dir repo
        res [r]).repo) r rec pid hrec hpid hne2 hdec2 how2]
      simp only [Repo.overwriteAll, initState, hfilter2]
      rfl
    rw [hbk2, find?_map_of_id (owMap (runResolve dir repo res [r]).repo pid rec)
      (owMap_id (runResolve dir repo res [r]).repo pid rec) _ b.id, hchase1]
    have hstep : owMap (runResolve dir repo res [r]).repo pid rec (owMap repo pid rec b0) =
        owMap repo pid rec b0 := by
      rw [hfb0]
      unfold owMap
      rw [show (applyOverwrite b0 rec pid).id = b0.id from rfl, hb0id]
      simp [hbid2, applyOverwrite_idem]
    simp [hstep]

/-- Witness for C9 at a concrete repository, row and resolutions map. -/
theorem overwrite_idempotent_target_witness :
    (runResolve [(1, "P1")] (runResolve [(1, "P1")] ⟨[⟨5, 1, 12, 18, "E", none, .confirmed⟩], 6⟩
        [("5", .overwrite)]
        [⟨1, some "P1", some (.ok 10), some (.ok 20), some "G", none, none⟩]).repo
        [("5", .overwrite)]
        [⟨1, some "P1", some (.ok 10), some (.ok 20), some "G", none, none⟩]).repo.bookings.find?
        (fun x => x.id == (⟨5, 1, 12, 18, "E", none, .confirmed⟩ : ExistingBooking).id) =
      (runResolve [(1, "P1")] ⟨[⟨5, 1, 12, 18, "E", none, .confirmed⟩], 6⟩
        [("5", .overwrite)]
        [⟨1, some "P1", some (.ok 10), some (.ok 20), some "G", none, none⟩]).repo.bookings.find?
        (fun x => x.id == (⟨5, 1, 12, 18, "E", none, .confirmed⟩ : ExistingBooking).id) :=
  overwrite_idempotent_target [(1, "P1")] ⟨[⟨5, 1, 12, 18, "E", none, .confirmed⟩], 6⟩
    [("5", .overwrite)] ⟨1, some "P1", some (.ok 10), some (.ok 20), some "G", none, none⟩
    ⟨"P1", 10, 20, "G", none, .confirmed, 1⟩ 1 ⟨5, 1, 12, 18, "E", none, .confirmed⟩
    (by decide) (by decide) (by decide) (by decide)


theorem processRowDetect_repo_mono (dir : PropDir) (st : ImportState) (r : RawRow)
    (b : ExistingBooking) (h : b ∈ st.repo.bookings) :
    b ∈ (processRowDetect dir st r).repo.bookings := by
  simp only [processRowDetect]
  repeat' split
  all_goals simp_all [Repo.create]

theorem foldl_detect_repo_mono (dir : PropDir) (rows : List RawRow) (st : ImportState)
    (b : ExistingBooking) (h : b ∈ st.repo.bookings) :
    b ∈ (rows.foldl (processRowDetect dir) st).repo.bookings := by
  induction rows generalizing st with
  | nil => simpa using h
  | cons a l ih => exact ih _ (processRowDetect_repo_mono dir st a b h)

theorem processRowDetect_conflicts_extend (dir : PropDir) (st : ImportState) (r : RawRow) :
    ∃ t, (processRowDetect dir st r).conflicts = st.conflicts ++ t := by
  simp only [processRowDetect]
  repeat' split
  all_goals first
    | exact ⟨_, rfl⟩
    | exact ⟨[], by simp⟩

theorem foldl_detect_conflicts_extend (dir : PropDir) (rows : List RawRow) (st : ImportState) :
    ∃ t, (rows.foldl (processRowDetect dir) st).conflicts = st.conflicts ++ t := by
  induction rows generalizing st with
  | nil => exact ⟨[], by simp⟩
  | cons a l ih =>
    obtain ⟨t1, ht1⟩ := processRowDetect_conflicts_extend dir st a
    obtain ⟨t2, ht2⟩ := ih (processRowDetect dir st a)
    exact ⟨t1 ++ t2, by simp [List.foldl_cons, ht2, ht1]⟩

theorem foldl_detect_commits (dir : PropDir) (rows : List RawRow) (st : ImportState)
    (hconf : (rows.foldl (processRowDetect dir) st).conflicts = st.conflicts) :
    ∀ r ∈ rows, ∀ rec pid, (validateRow r).2 = some rec →
      lookupByName dir rec.property_name = some pid →
      ∃ b2 ∈ (rows.foldl (processRowDetect dir) st).repo.bookings,
        b2.property_id = pid ∧ b2.check_in = rec.check_in ∧ b2.check_out = rec.check_out ∧
        b2.status = rec.status := by
  induction rows generalizing st with
  | nil =>
    intro r hr
    cases hr
  | cons a l ih =>
    intro r hr rec pid hrec hpid
    obtain ⟨t1, ht1⟩ := processRowDetect_conflicts_extend dir st a
    obtain ⟨t2, ht2⟩ := foldl_detect_conflicts_extend dir l (processRowDetect dir st a)
    have ht : st.conflicts ++ (t1 ++ t2) = st.conflicts ++ [] := by
      simp only [List.foldl_cons] at hconf
      rw [ht2, ht1] at hconf
      simpa [List.append_assoc] using hconf
    have htnil : t1 = [] ∧ t2 = [] := by
      have hlen := congrArg List.length ht
      simp at hlen
      exact hlen
    have hconf2 : (l.foldl (processRowDetect dir) (processRowDetect dir st a)).conflicts =
        (processRowDetect dir st a).conflicts := by
      rw [ht2, htnil.2]
      simp
    simp only [List.foldl_cons]
    rcases List.mem_cons.mp hr with hr | hr
    · subst hr
      by_cases hemp : queryOverlapping st.repo pid rec.check_in rec.check_out = []
      · have hstep := processRowDetect_commit dir st r rec pid hrec hpid hemp
        have hbmem : (⟨st.repo.nextId, pid, rec.check_in, rec.check_out, rec.guest_name,
            rec.guest_contact, rec.status⟩ : ExistingBooking) ∈
            (processRowDetect dir st r).repo.bookings := by
          rw [hstep]
          simp [Repo.create]
        exact ⟨_, foldl_detect_repo_mono dir l _ _ hbmem, rfl, rfl, rfl, rfl⟩
      · exfalso
        have hstep := processRowDetect_conflict dir st r rec pid hrec hpid hemp
        rw [hstep] at ht1
        have hmap : (queryOverlapping st.repo pid rec.check_in rec.check_out).map
            (mkConflict rec pid) = t1 := List.append_cancel_left ht1
        rw [htnil.1, List.map_eq_nil_iff] at hmap
        exact hemp hmap
    · exact ih (processRowDetect dir st a) hconf2 r hr rec pid hrec hpid

theorem foldl_detect_all_conflict (dir : PropDir) (rows : List RawRow) (st : ImportState)
    (hall : ∀ r ∈ rows, ∀ rec pid, (validateRow r).2 = some rec →
      lookupByName dir rec.property_name = some pid →
      queryOverlapping st.repo pid rec.check_in rec.check_out ≠ []) :
    (rows.foldl (processRowDetect dir) st).repo = st.repo ∧
    (rows.foldl (processRowDetect dir) st).imported = st.imported ∧
    ∀ r ∈ rows, ∀ rec pid, (validateRow r).2 = some rec →
      lookupByName dir rec.property_name = some pid →
      ∃ c ∈ (rows.foldl (processRowDetect dir) st).conflicts,
        c.row_index = rec.source_row_index := by
  induction rows generalizing st with
  | nil =>
    refine ⟨rfl, rfl, ?_⟩
    intro r hr
    cases hr
  | cons a l ih =>
    simp only [List.foldl_cons]
    have hstepfacts : (processRowDetect dir st a).repo = st.repo ∧
        (processRowDetect dir st a).imported = st.imported := by
      rcases hva : (validateRow a).2 with _ | reca
      · rw [processRowDetect_invalid dir st a hva]
        exact ⟨rfl, rfl⟩
      · rcases hpa : lookupByName dir reca.property_name with _ | pida
        · rw [processRowDetect_unknown dir st a reca hva hpa]
          exact ⟨rfl, rfl⟩
        · have hne := hall a (List.mem_cons_self a l) reca pida hva hpa
          rw [processRowDetect_conflict dir st a reca pida hva hpa hne]
          exact ⟨rfl, rfl⟩
    have hih := ih (processRowDetect dir st a) (by
      intro r hr rec pid h1 h2
      rw [hstepfacts.1]
      exact hall r (List.mem_cons_of_mem a hr) rec pid h1 h2)
    refine ⟨by rw [hih.1, hstepfacts.1], by rw [hih.2.1, hstepfacts.2], ?_⟩
    intro r hr rec pid h1 h2
    rcases List.mem_cons.mp hr with hr | hr
    · subst hr
      have hne := hall r (List.mem_cons_self r l) rec pid h1 h2
      have hstep := processRowDetect_conflict dir st r rec pid h1 h2 hne
      obtain ⟨b, hbq⟩ := List.exists_mem_of_ne_nil _ hne
      have hcmem : mkConflict rec pid b ∈ (processRowDetect dir st r).conflicts := by
        rw [hstep]
        exact List.mem_append_right _ (List.mem_map_of_mem _ hbq)
      obtain ⟨t2, ht2⟩ := foldl_detect_conflicts_extend dir l (processRowDetect dir st r)
      refine ⟨mkConflict rec pid b, ?_, rfl⟩
      rw [ht2]
      exact List.mem_append_left _ hcmem
    · exact hih.2.2 r hr rec pid h1 h2


/-- Counterexample for C5: a single valid row with status cancelled commits
on the first detect call with no conflict reported, yet the second detect
call over the identical input commits it again (the committed copy is
cancelled and so excluded from the overlap query), growing the repository
to two bookings and reporting no conflict. -/
theorem rerun_double_commit_cancelled :
    (runDetect [(1, "P1")] ⟨[], 0⟩
      [⟨1, some "P1", some (.ok 10), some (.ok 12), some "G", none, some "cancelled"⟩]).conflicts
        = [] ∧
    (runDetect [(1, "P1")] ⟨[], 0⟩
      [⟨1, some "P1", some (.ok 10), some (.ok 12), some "G", none, some "cancelled"⟩]).imported
        = 1 ∧
    (runDetect [(1, "P1")] (runDetect [(1, "P1")] ⟨[], 0⟩
        [⟨1, some "P1", some (.ok 10), some (.ok 12), some "G", none,
          some "cancelled"⟩]).repo
      [⟨1, some "P1", some (.ok 10), some (.ok 12), some "G", none, some "cancelled"⟩]).imported
        = 1 ∧
    (runDetect [(1, "P1")] (runDetect [(1, "P1")] ⟨[], 0⟩
        [⟨1, some "P1", some (.ok 10), some (.ok 12), some "G", none,
          some "cancelled"⟩]).repo
      [⟨1, some "P1", some (.ok 10), some (.ok 12), some "G", none, some "cancelled"⟩]).conflicts
        = [] ∧
    (runDetect [(1, "P1")] (runDetect [(1, "P1")] ⟨[], 0⟩
        [⟨1, some "P1", some (.ok 10), some (.ok 12), some "G", none,
          some "cancelled"⟩]).repo
      [⟨1, some "P1", some (.ok 10), some (.ok 12), some "G", none,
        some "cancelled"⟩]).repo.bookings.length = 2 := by
  decide

/-- Claim C5 (amended): when a detect call over an input reports no
conflict (every valid row commits) and no valid row carries status
cancelled, re-running detect-and-import on the identical input over the
repository the first call produced commits nothing, leaves the repository
unchanged, and reports every valid row as a conflict. -/
theorem rerun_reports_conflicts (dir : PropDir) (repo : Repo) (rows : List RawRow)
    (hconf : (runDetect dir repo rows).conflicts = [])
    (hnc : ∀ r ∈ rows, ∀ rec, (validateRow r).2 = some rec → rec.status ≠ .cancelled) :
    (runDetect dir (runDetect dir repo rows).repo rows).repo = (runDetect dir repo rows).repo ∧
    (runDetect dir (runDetect dir repo rows).repo rows).imported = 0 ∧
    (∀ r ∈ rows, ∀ rec pid, (validateRow r).2 = some rec →
      lookupByName dir rec.property_name = some pid →
      ∃ c ∈ (runDetect dir (runDetect dir repo rows).repo rows).conflicts,
        c.row_index = rec.source_row_index) := by
  have hconf0 : (rows.foldl (processRowDetect dir) (initState repo)).conflicts =
      (initState repo).conflicts := by
    simpa [runDetect, initState] using hconf
  have hcommits := foldl_detect_commits dir rows (initState repo) hconf0
  have hall : ∀ r ∈ rows, ∀ rec pid, (validateRow r).2 = some rec →
      lookupByName dir rec.property_name = some pid →
      queryOverlapping (initState (runDetect dir repo rows).repo).repo pid rec.check_in
        rec.check_out ≠ [] := by
    intro r hr rec pid h1 h2
    obtain ⟨b2, hb2mem, hbpid, hbci, hbco, hbst⟩ := hcommits r hr rec pid h1 h2
    have hlt := (validateRow_record r rec h1).1
    have hbq : b2 ∈ queryOverlapping (runDetect dir repo rows).repo pid rec.check_in
        rec.check_out := by
      apply List.mem_filter.mpr
      refine ⟨hb2mem, ?_⟩
      have hncb : rec.status ≠ .cancelled := hnc r hr rec h1
      simp [bookingConflicts, hbpid, hbci, hbco, hbst, overlaps, hlt]
      exact hncb
    exact List.ne_nil_of_mem hbq
  have hmain := foldl_detect_all_conflict dir rows (initState (runDetect dir repo rows).repo)
    hall
  refine ⟨?_, ?_, ?_⟩
  · simpa [runDetect, initState] using hmain.1
  · simpa [runDetect, initState] using hmain.2.1
  · intro r hr rec pid h1 h2
    exact hmain.2.2 r hr rec pid h1 h2

/-- Witness for the amended C5 at a concrete one-row input. -/
theorem rerun_reports_conflicts_witness :
    (runDetect [(1, "P1")] (runDetect [(1, "P1")] ⟨[], 0⟩
        [⟨1, some "P1", some (.ok 10), some (.ok 20), some "G", none, none⟩]).repo
      [⟨1, some "P1", some (.ok 10), some (.ok 20), some "G", none, none⟩]).repo =
      (runDetect [(1, "P1")] ⟨[], 0⟩
        [⟨1, some "P1", some (.ok 10), some (.ok 20), some "G", none, none⟩]).repo ∧
    (runDetect [(1, "P1")] (runDetect [(1, "P1")] ⟨[], 0⟩
        [⟨1, some "P1", some (.ok 10), some (.ok 20), some "G", none, none⟩]).repo
      [⟨1, some "P1", some (.ok 10), some (.ok 20), some "G", none, none⟩]).imported = 0 ∧
    (∀ r ∈ [(⟨1, some "P1", some (.ok 10), some (.ok 20), some "G", none, none⟩ : RawRow)],
      ∀ rec pid, (validateRow r).2 = some rec →
      lookupByName [(1, "P1")] rec.property_name = some pid →
      ∃ c ∈ (runDetect [(1, "P1")] (runDetect [(1, "P1")] ⟨[], 0⟩
          [⟨1, some "P1", some (.ok 10), some (.ok 20), some "G", none, none⟩]).repo
        [⟨1, some "P1", some (.ok 10), some (.ok 20), some "G", none, none⟩]).conflicts,
        c.row_index = rec.source_row_index) :=
  rerun_reports_conflicts [(1, "P1")] ⟨[], 0⟩
    [⟨1, some "P1", some (.ok 10), some (.ok 20), some "G", none, none⟩]
    (by decide)
    (by
      intro r hr rec h
      simp only [List.mem_singleton] at hr
      subst hr
      have hv : (validateRow (⟨1, some "P1", some (.ok 10), some (.ok 20), some "G", none,
          none⟩ : RawRow)).2 = some ⟨"P1", 10, 20, "G", none, .confirmed, 1⟩ := by decide
      rw [hv, Option.some_inj] at h
      rw [← h]
      decide)



/-- Claim C10: save_model on creation sets both created_by and modified_by
to the requesting user and sets history to a one-entry list
recording the creation; on an edit in which no form field changed, the
object, in particular its history and modified_by fields, is left
unchanged. -/
theorem save_model_creation_and_noop_edit (username : String) (userId : Nat) (now : String)
    (obj : TaskState) (form formE : FormData) (hE : formE.changed_data = []) :
    (save_model username userId now obj form false).created_by = some userId ∧
    (save_model username userId now obj form false).modified_by = some userId ∧
    (save_model username userId now obj form false).history =
      [now ++ ": " ++ username ++ " created task"] ∧
    (save_model username userId now obj form false).history.length = 1 ∧
    (save_model username userId now obj formE true).history = obj.history ∧
    (save_model username userId now obj formE true).modified_by = obj.modified_by ∧
    save_model username userId now obj formE true = obj := by
  have hnoop : save_model username userId now obj formE true = obj := by
    simp [save_model, hE]
  exact ⟨rfl, rfl, rfl, rfl, by rw [hnoop], by rw [hnoop], hnoop⟩

/-- Witness for C10 at concrete inputs. -/
theorem save_model_creation_and_noop_edit_witness :
    (save_model "alice" 7 "2024-01-01T00:00:00" ⟨none, none, []⟩
      ⟨["title"], [("title", "a")], [("title", "b")]⟩ false).created_by = some 7 ∧
    (save_model "alice" 7 "2024-01-01T00:00:00" ⟨none, none, []⟩
      ⟨["title"], [("title", "a")], [("title", "b")]⟩ false).modified_by = some 7 ∧
    (save_model "alice" 7 "2024-01-01T00:00:00" ⟨none, none, []⟩
      ⟨["title"], [("title", "a")], [("title", "b")]⟩ false).history =
      ["2024-01-01T00:00:00" ++ ": " ++ "alice" ++ " created task"] ∧
    (save_model "alice" 7 "2024-01-01T00:00:00" ⟨none, none, []⟩
      ⟨["title"], [("title", "a")], [("title", "b")]⟩ false).history.length = 1 ∧
    (save_model "alice" 7 "2024-01-01T00:00:00" ⟨none, none, []⟩
      ⟨[], [], []⟩ true).history = (⟨none, none, []⟩ : TaskState).history ∧
    (save_model "alice" 7 "2024-01-01T00:00:00" ⟨none, none, []⟩
      ⟨[], [], []⟩ true).modified_by = (⟨none, none, []⟩ : TaskState).modified_by ∧
    save_model "alice" 7 "2024-01-01T00:00:00" ⟨none, none, []⟩
      ⟨[], [], []⟩ true = ⟨none, none, []⟩ :=
  save_model_creation_and_noop_edit "alice" 7 "2024-01-01T00:00:00" ⟨none, none, []⟩
    ⟨["title"], [("title", "a")], [("title", "b")]⟩ ⟨[], [], []⟩ rfl

end Aristay
